import Mathlib

/-!
Verification of the breakout backtesting core of the trading23 repository.

The Rust sources are embedded shallowly: `f64` values become `ℚ` (so every
division is total, with `x / 0 = 0`; the float `NaN`/infinity corner cases are
noted at each definition they would affect), `Vec<T>` becomes `List`, fallible
functions return `Option`/`Except` where the source returns `Result` or can
panic (a panic is modelled as `none`).
-/

/-- Rust `f64::round`: round half away from zero (e.g. `0.5 → 1`, `-0.5 → -1`). -/
def rustRound (q : ℚ) : ℤ :=
  if 0 ≤ q then ⌊q + 1 / 2⌋ else -⌊-q + 1 / 2⌋

/-- Rust `(x * 10.0).round() / 10.0`: round to 1 decimal place. -/
def round1 (q : ℚ) : ℚ := (rustRound (q * 10) : ℚ) / 10

/-- Rust `(x * 100.0).round() / 100.0`: round to 2 decimal places. -/
def round2 (q : ℚ) : ℚ := (rustRound (q * 100) : ℚ) / 100

/-- Rust `(x * 1000.0).round() / 1000.0`: round to 3 decimal places. -/
def round3 (q : ℚ) : ℚ := (rustRound (q * 1000) : ℚ) / 1000

/-- Rust `f64::trunc`: drop the fractional part, toward zero. -/
def rustTrunc (q : ℚ) : ℤ :=
  if 0 ≤ q then ⌊q⌋ else -⌊-q⌋

/-- Rust `(x * 1000.0).trunc() / 1000.0`: truncate to 3 decimal places. -/
def trunc3 (q : ℚ) : ℚ := (rustTrunc (q * 1000) : ℚ) / 1000

/-- Rust `iter().fold(f64::NAN, f64::min)`: since `f64::min(NAN, x) = x`, on a
nonempty list of non-NaN values this is the minimum; the empty-list `NaN`
result is mapped to `0` (no call site folds an empty list). -/
def rustFoldMin (l : List ℚ) : ℚ :=
  match l with
  | [] => 0
  | x :: xs => xs.foldl min x

/-- Rust `iter().fold(f64::NAN, f64::max)`, same conventions as `rustFoldMin`. -/
def rustFoldMax (l : List ℚ) : ℚ :=
  match l with
  | [] => 0
  | x :: xs => xs.foldl max x

set_option maxRecDepth 40000

-- sanity: kernel evaluation of ℚ arithmetic
example : ((1 : ℚ) / 3 + 1 / 6 = 1 / 2) := by with_unfolding_all decide
example : rustRound (-1 / 2) = -1 := by with_unfolding_all decide
example : rustRound (5 / 2) = 3 := by with_unfolding_all decide

/-- The daily price bar `Ohlc` of `src/analysis/live.rs` (date, open, high,
low, close); the Rust field `open` is a Lean keyword and is rendered `opn`. -/
structure Ohlc where
  date : String
  opn : ℚ
  high : ℚ
  low : ℚ
  close : ℚ
deriving DecidableEq

instance : Inhabited Ohlc := ⟨⟨"", 0, 0, 0, 0⟩⟩

/-- The `LongShortControl` enum of `src/analysis/backtesting.rs`. -/
inductive LongShortControl where
  | Long
  | Short
  | Control
deriving DecidableEq

/-- The Bar invariant stated by the spec's data model:
low ≤ min(open,close) ≤ max(open,close) ≤ high. -/
def BarInv (b : Ohlc) : Prop :=
  b.low ≤ min b.opn b.close ∧ max b.opn b.close ≤ b.high

instance (b : Ohlc) : Decidable (BarInv b) := by unfold BarInv; infer_instance

/-- `backtesting.rs` line 38: `last[0].get_close()` after
`testing_ohlc_20.split_at(19)` (the anchor bar's close). -/
def last_close (testing_ohlc_20 : List Ohlc) : ℚ :=
  ((testing_ohlc_20.drop 19).headI).close

/-- `backtesting.rs` lines 39–42: max of `get_high()` over the 19 prior bars,
folded from `f64::NAN`. -/
def prev_19_high (testing_ohlc_20 : List Ohlc) : ℚ :=
  rustFoldMax ((testing_ohlc_20.take 19).map (·.high))

/-- `backtesting.rs` lines 43–46: min of `get_low()` over the 19 prior bars. -/
def prev_19_low (testing_ohlc_20 : List Ohlc) : ℚ :=
  rustFoldMin ((testing_ohlc_20.take 19).map (·.low))

/-- `backtesting.rs` lines 48–52: the breakout classifier,
`match (last_close > high, last_close < low)`. -/
def long_or_short_or_control_of (testing_ohlc_20 : List Ohlc) : LongShortControl :=
  match decide (last_close testing_ohlc_20 > prev_19_high testing_ohlc_20),
        decide (last_close testing_ohlc_20 < prev_19_low testing_ohlc_20) with
  | true, _ => .Long
  | _, true => .Short
  | _, _ => .Control

/-- `backtesting.rs` lines 54–58 (and the analogous lines 163–167, 190–194):
the stop distance at retracement fraction `f`, computed from the anchor close
and the 19-prior-bar high/low. -/
def stop_loss_range (testing_ohlc_20 : List Ohlc) (f : ℚ) : ℚ :=
  match long_or_short_or_control_of testing_ohlc_20 with
  | .Long => (last_close testing_ohlc_20 - prev_19_low testing_ohlc_20) * f
  | .Short => (prev_19_high testing_ohlc_20 - last_close testing_ohlc_20) * f
  | .Control => (prev_19_high testing_ohlc_20 - prev_19_low testing_ohlc_20) * f

/-- The spec's version of the stop distance (§4.2): `range_low`/`range_high`
are taken over the whole 20-bar window, anchor bar included. Written from the
spec's words, to be compared with `stop_loss_range` (which is written from the
source). -/
def stop_loss_range_spec (testing_ohlc_20 : List Ohlc) (f : ℚ) : ℚ :=
  let range_high := rustFoldMax (testing_ohlc_20.map (·.high))
  let range_low := rustFoldMin (testing_ohlc_20.map (·.low))
  match long_or_short_or_control_of testing_ohlc_20 with
  | .Long => (last_close testing_ohlc_20 - range_low) * f
  | .Short => (range_high - last_close testing_ohlc_20) * f
  | .Control => (range_high - range_low) * f

/-- `backtesting.rs` lines 89–102, the inner fn `day_x_close`: close-based
return at day `day_x`, rounded to 2 decimals, sign-flipped for Short.
Rust's `future_ohlc[day_x]` / `future_ohlc[0]` panic out of range; every
call site passes an index within the slice, so total `getD`/`headI` reads
are a faithful rendering at those call sites. -/
def day_x_close (day_x : ℕ) (future_ohlc : List Ohlc)
    (long_or_short_or_control : LongShortControl) (stop_loss_range : ℚ) : ℚ :=
  let result := ((future_ohlc.getD day_x default).close - future_ohlc.headI.opn) / stop_loss_range
  let result_rounded := round2 result
  match long_or_short_or_control with
  | .Long | .Control => result_rounded
  | .Short => result_rounded * (-1)

/-- `backtesting.rs` lines 104–140, the inner fn `day_x_with_stop_loss`:
scan the whole forward slice for a stop breach (strictly below `-1.0` for
Long/Control on lows, strictly above `1.0` for Short on highs); if breached
the outcome is `-1.0`, otherwise the close-based return at `day_x`. -/
def day_x_with_stop_loss (day_x : ℕ) (future_ohlc : List Ohlc)
    (stop_loss_range : ℚ) (dir : LongShortControl) : ℚ :=
  match dir with
  | .Long | .Control =>
    match decide (rustFoldMin (future_ohlc.map
        (fun x => (x.low - future_ohlc.headI.opn) / stop_loss_range)) < -1) with
    | true => -1
    | false => day_x_close day_x future_ohlc dir stop_loss_range
  | .Short =>
    match decide (rustFoldMax (future_ohlc.map
        (fun x => (x.high - future_ohlc.headI.opn) / stop_loss_range)) > 1) with
    | true => -1
    | false => day_x_close day_x future_ohlc dir stop_loss_range

/-- One step of the gap adjustment of `backtesting.rs` lines 80–86: overwrite
the bar's open with the previous bar's close, widening high/low to include it. -/
def gapAdjustStep (prevClose : ℚ) (b : Ohlc) : Ohlc :=
  let b1 := { b with opn := prevClose }
  let b2 := if b1.opn > b1.high then { b1 with high := prevClose } else b1
  if b2.opn < b2.low then { b2 with low := prevClose } else b2

/-- Tail of the gap-adjustment loop; `prevClose` is the previous bar's
original close (`testing_ohlc_60[i].get_close()`), which the loop never
modifies, so threading the original closes is exact. -/
def gapAdjustGo (prevClose : ℚ) : List Ohlc → List Ohlc
  | [] => []
  | b :: rest => gapAdjustStep prevClose b :: gapAdjustGo b.close rest

/-- The gap-adjusted copy built by `backtesting.rs` lines 78–87 (`ohlc_vec`);
the first bar is left untouched. -/
def gapAdjust : List Ohlc → List Ohlc
  | [] => []
  | b :: rest => b :: gapAdjustGo b.close rest

/-- The standardized range-diff formula of `backtesting.rs` lines 60–76
applied to a list of bars: `trunc3(mean(high-low) / (max high - min low))`. -/
def standardized_diff_of (l : List Ohlc) : ℚ :=
  let highest_high := rustFoldMax (l.map (·.high))
  let lowest_low := rustFoldMin (l.map (·.low))
  let average_diff := (l.map (fun o => o.high - o.low)).sum / (l.length : ℚ)
  trunc3 (average_diff / (highest_high - lowest_low))

/-- The spec's version of the standardized range-diff (§4.1–§4.2): the same
statistic but computed on the gap-adjusted copy of the bars. Written from the
spec's words, to be compared with what the source computes. -/
def standardized_diff_adjusted_spec (l : List Ohlc) : ℚ :=
  standardized_diff_of (gapAdjust l)

/-- The `BacktestAnalyzer` record of `src/analysis/backtesting.rs`. -/
structure BacktestAnalyzer where
  date : String
  standardized_diff : ℚ
  day5_with_stop_loss_38 : ℚ
  day5_with_stop_loss_50 : ℚ
  day5_with_stop_loss_62 : ℚ
  day10_with_stop_loss_38 : ℚ
  day10_with_stop_loss_50 : ℚ
  day10_with_stop_loss_62 : ℚ
  day20_with_stop_loss_38 : ℚ
  day20_with_stop_loss_50 : ℚ
  day20_with_stop_loss_62 : ℚ
  long_or_short_or_control : LongShortControl
deriving DecidableEq

/-- `backtesting.rs` line 30: the 60-bar lookback slice `raw_ohlc[day..day+60]`. -/
def testing_ohlc_60 (raw_ohlc : List Ohlc) (day : ℕ) : List Ohlc :=
  (raw_ohlc.drop day).take 60

/-- `backtesting.rs` line 31: the 20-bar sub-window `raw_ohlc[day+40..day+60]`. -/
def testing_ohlc_20 (raw_ohlc : List Ohlc) (day : ℕ) : List Ohlc :=
  (raw_ohlc.drop (day + 40)).take 20

/-- `backtesting.rs` line 32: the forward slice `raw_ohlc[day+60..day+81]`. -/
def future_ohlc_20 (raw_ohlc : List Ohlc) (day : ℕ) : List Ohlc :=
  (raw_ohlc.drop (day + 60)).take 21

/-- `backtesting.rs` line 33: the forward slice `raw_ohlc[day+60..day+71]`. -/
def future_ohlc_10 (raw_ohlc : List Ohlc) (day : ℕ) : List Ohlc :=
  (raw_ohlc.drop (day + 60)).take 11

/-- `BacktestAnalyzer::new` (`backtesting.rs` lines 29–232). The Rust slices
panic when `raw_ohlc` is shorter than `day + 81`; the panic is modelled as
`none`. The gap-adjusted copy `ohlc_vec` built by lines 78–87 (embedded as
`gapAdjust`) is consumed by no field of the returned record, exactly as in
the source, and is therefore not named here. -/
def BacktestAnalyzer.new (raw_ohlc : List Ohlc) (day : ℕ) : Option BacktestAnalyzer :=
  if day + 81 ≤ raw_ohlc.length then
    some
      { date := ((testing_ohlc_60 raw_ohlc day).getD 59 default).date
        standardized_diff := standardized_diff_of (testing_ohlc_60 raw_ohlc day)
        day5_with_stop_loss_38 := day_x_with_stop_loss 4 (future_ohlc_10 raw_ohlc day)
          (stop_loss_range (testing_ohlc_20 raw_ohlc day) (38 / 100))
          (long_or_short_or_control_of (testing_ohlc_20 raw_ohlc day))
        day5_with_stop_loss_50 := day_x_with_stop_loss 4 (future_ohlc_10 raw_ohlc day)
          (stop_loss_range (testing_ohlc_20 raw_ohlc day) (1 / 2))
          (long_or_short_or_control_of (testing_ohlc_20 raw_ohlc day))
        day5_with_stop_loss_62 := day_x_with_stop_loss 4 (future_ohlc_10 raw_ohlc day)
          (stop_loss_range (testing_ohlc_20 raw_ohlc day) (62 / 100))
          (long_or_short_or_control_of (testing_ohlc_20 raw_ohlc day))
        day10_with_stop_loss_38 := day_x_with_stop_loss 9 (future_ohlc_10 raw_ohlc day)
          (stop_loss_range (testing_ohlc_20 raw_ohlc day) (38 / 100))
          (long_or_short_or_control_of (testing_ohlc_20 raw_ohlc day))
        day10_with_stop_loss_50 := day_x_with_stop_loss 9 (future_ohlc_10 raw_ohlc day)
          (stop_loss_range (testing_ohlc_20 raw_ohlc day) (1 / 2))
          (long_or_short_or_control_of (testing_ohlc_20 raw_ohlc day))
        day10_with_stop_loss_62 := day_x_with_stop_loss 9 (future_ohlc_10 raw_ohlc day)
          (stop_loss_range (testing_ohlc_20 raw_ohlc day) (62 / 100))
          (long_or_short_or_control_of (testing_ohlc_20 raw_ohlc day))
        day20_with_stop_loss_38 := day_x_with_stop_loss 19 (future_ohlc_20 raw_ohlc day)
          (stop_loss_range (testing_ohlc_20 raw_ohlc day) (38 / 100))
          (long_or_short_or_control_of (testing_ohlc_20 raw_ohlc day))
        day20_with_stop_loss_50 := day_x_with_stop_loss 19 (future_ohlc_20 raw_ohlc day)
          (stop_loss_range (testing_ohlc_20 raw_ohlc day) (1 / 2))
          (long_or_short_or_control_of (testing_ohlc_20 raw_ohlc day))
        day20_with_stop_loss_62 := day_x_with_stop_loss 19 (future_ohlc_20 raw_ohlc day)
          (stop_loss_range (testing_ohlc_20 raw_ohlc day) (62 / 100))
          (long_or_short_or_control_of (testing_ohlc_20 raw_ohlc day))
        long_or_short_or_control := long_or_short_or_control_of (testing_ohlc_20 raw_ohlc day) }
  else none


/-! ### Lemmas about the NaN-seeded folds -/

theorem foldl_min_le_init (xs : List ℚ) (x : ℚ) : xs.foldl min x ≤ x := by
  induction xs generalizing x with
  | nil => simp
  | cons y ys ih => exact le_trans (ih (min x y)) (min_le_left x y)

theorem foldl_min_le_of_mem (xs : List ℚ) (x a : ℚ) (h : a ∈ xs) : xs.foldl min x ≤ a := by
  induction xs generalizing x with
  | nil => cases h
  | cons y ys ih =>
    rcases List.mem_cons.mp h with rfl | h'
    · exact le_trans (foldl_min_le_init ys (min x a)) (min_le_right x a)
    · exact ih (min x y) h'

theorem rustFoldMin_le_of_mem (l : List ℚ) (a : ℚ) (h : a ∈ l) : rustFoldMin l ≤ a := by
  cases l with
  | nil => cases h
  | cons x xs =>
    rcases List.mem_cons.mp h with rfl | h'
    · exact foldl_min_le_init xs a
    · exact foldl_min_le_of_mem xs x a h'

theorem foldl_min_mem (xs : List ℚ) (x : ℚ) : xs.foldl min x ∈ x :: xs := by
  induction xs generalizing x with
  | nil => simp
  | cons y ys ih =>
    have h := ih (min x y)
    show List.foldl min (min x y) ys ∈ x :: y :: ys
    rcases min_choice x y with hm | hm <;> rw [hm] at h ⊢ <;>
      rcases List.mem_cons.mp h with h' | h' <;> simp [h']

theorem rustFoldMin_mem (l : List ℚ) (h : l ≠ []) : rustFoldMin l ∈ l := by
  cases l with
  | nil => exact absurd rfl h
  | cons x xs => exact foldl_min_mem xs x

theorem init_le_foldl_max (xs : List ℚ) (x : ℚ) : x ≤ xs.foldl max x := by
  induction xs generalizing x with
  | nil => simp
  | cons y ys ih => exact le_trans (le_max_left x y) (ih (max x y))

theorem le_foldl_max_of_mem (xs : List ℚ) (x a : ℚ) (h : a ∈ xs) : a ≤ xs.foldl max x := by
  induction xs generalizing x with
  | nil => cases h
  | cons y ys ih =>
    rcases List.mem_cons.mp h with rfl | h'
    · exact le_trans (le_max_right x a) (init_le_foldl_max ys (max x a))
    · exact ih (max x y) h'

theorem le_rustFoldMax_of_mem (l : List ℚ) (a : ℚ) (h : a ∈ l) : a ≤ rustFoldMax l := by
  cases l with
  | nil => cases h
  | cons x xs =>
    rcases List.mem_cons.mp h with rfl | h'
    · exact init_le_foldl_max xs a
    · exact le_foldl_max_of_mem xs x a h'

theorem foldl_max_mem (xs : List ℚ) (x : ℚ) : xs.foldl max x ∈ x :: xs := by
  induction xs generalizing x with
  | nil => simp
  | cons y ys ih =>
    have h := ih (max x y)
    show List.foldl max (max x y) ys ∈ x :: y :: ys
    rcases max_choice x y with hm | hm <;> rw [hm] at h ⊢ <;>
      rcases List.mem_cons.mp h with h' | h' <;> simp [h']

theorem rustFoldMax_mem (l : List ℚ) (h : l ≠ []) : rustFoldMax l ∈ l := by
  cases l with
  | nil => exact absurd rfl h
  | cons x xs => exact foldl_max_mem xs x

/-! ### C1 and C10: stop-out semantics of `day_x_with_stop_loss` -/

/-- C1: the simulator folds the excursion ratio over the whole forward slice it
is given, so a breach strictly below −1.0 (Long/Control, on lows) or strictly
above +1.0 (Short, on highs) at ANY index of that slice — also one past
`day_x` — forces the simulated outcome to be exactly −1.0, regardless of the
close at day `day_x`. -/
theorem claim_c1_stop_breach_anywhere_forces_minus_one
    (day_x : ℕ) (future_ohlc : List Ohlc) (d : ℚ) :
    (∀ dir, (dir = LongShortControl.Long ∨ dir = LongShortControl.Control) →
      (∃ i, ∃ hi : i < future_ohlc.length,
        ((future_ohlc.get ⟨i, hi⟩).low - future_ohlc.headI.opn) / d < -1) →
      day_x_with_stop_loss day_x future_ohlc d dir = -1)
    ∧ ((∃ i, ∃ hi : i < future_ohlc.length,
        ((future_ohlc.get ⟨i, hi⟩).high - future_ohlc.headI.opn) / d > 1) →
      day_x_with_stop_loss day_x future_ohlc d LongShortControl.Short = -1) := by
  constructor
  · rintro dir hdir ⟨i, hi, hlt⟩
    have hmem : ((future_ohlc.get ⟨i, hi⟩).low - future_ohlc.headI.opn) / d ∈
        future_ohlc.map (fun x => (x.low - future_ohlc.headI.opn) / d) :=
      List.mem_map_of_mem _ (future_ohlc.get_mem i hi)
    have hmin : rustFoldMin (future_ohlc.map
        (fun x => (x.low - future_ohlc.headI.opn) / d)) < -1 :=
      lt_of_le_of_lt (rustFoldMin_le_of_mem _ _ hmem) hlt
    rcases hdir with rfl | rfl <;> simp [day_x_with_stop_loss, hmin]
  · rintro ⟨i, hi, hgt⟩
    have hmem : ((future_ohlc.get ⟨i, hi⟩).high - future_ohlc.headI.opn) / d ∈
        future_ohlc.map (fun x => (x.high - future_ohlc.headI.opn) / d) :=
      List.mem_map_of_mem _ (future_ohlc.get_mem i hi)
    have hmax : 1 < rustFoldMax (future_ohlc.map
        (fun x => (x.high - future_ohlc.headI.opn) / d)) :=
      lt_of_lt_of_le hgt (le_rustFoldMax_of_mem _ _ hmem)
    simp [day_x_with_stop_loss, hmax]

/-- Forward path for the C1 witness: a Long trade with stop distance 1 whose
day-2 low breaches the stop while the day-4 close would give a large positive
close-based return. -/
def c1_path : List Ohlc :=
  [⟨"d0", 10, 10, 10, 10⟩, ⟨"d1", 10, 10, 9, 10⟩, ⟨"d2", 10, 10, 0, 10⟩,
   ⟨"d3", 10, 10, 10, 10⟩, ⟨"d4", 10, 100, 10, 100⟩]

/-- Forward path for the C1 witness, Short side: day-2 high breaches upward
while the day-4 close would give a favourable short return. -/
def c1_path_short : List Ohlc :=
  [⟨"d0", 10, 10, 10, 10⟩, ⟨"d1", 10, 11, 9, 10⟩, ⟨"d2", 10, 30, 10, 10⟩,
   ⟨"d3", 10, 10, 10, 10⟩, ⟨"d4", 10, 10, 5, 5⟩]

/-- Witness for C1 at concrete inputs on both branches. -/
theorem claim_c1_witness :
    ((∃ i, ∃ hi : i < c1_path.length,
        ((c1_path.get ⟨i, hi⟩).low - c1_path.headI.opn) / 1 < -1)
      ∧ day_x_with_stop_loss 4 c1_path 1 LongShortControl.Long = -1)
    ∧ ((∃ i, ∃ hi : i < c1_path_short.length,
        ((c1_path_short.get ⟨i, hi⟩).high - c1_path_short.headI.opn) / 1 > 1)
      ∧ day_x_with_stop_loss 4 c1_path_short 1 LongShortControl.Short = -1) := by
  constructor
  · exact ⟨⟨2, by with_unfolding_all decide, by with_unfolding_all decide⟩,
      (claim_c1_stop_breach_anywhere_forces_minus_one 4 c1_path 1).1
        LongShortControl.Long (Or.inl rfl)
        ⟨2, by with_unfolding_all decide, by with_unfolding_all decide⟩⟩
  · exact ⟨⟨2, by with_unfolding_all decide, by with_unfolding_all decide⟩,
      (claim_c1_stop_breach_anywhere_forces_minus_one 4 c1_path_short 1).2
        ⟨2, by with_unfolding_all decide, by with_unfolding_all decide⟩⟩

/-- C10: the stop-out test is strict — a worst excursion ratio of exactly −1.0
(Long/Control) or exactly +1.0 (Short) does not stop the trade out, and the
outcome is the close-based return at day `day_x`. -/
theorem claim_c10_exact_touch_is_not_stopped_out
    (day_x : ℕ) (future_ohlc : List Ohlc) (d : ℚ) :
    (∀ dir, (dir = LongShortControl.Long ∨ dir = LongShortControl.Control) →
      rustFoldMin (future_ohlc.map
        (fun x => (x.low - future_ohlc.headI.opn) / d)) = -1 →
      day_x_with_stop_loss day_x future_ohlc d dir =
        day_x_close day_x future_ohlc dir d)
    ∧ (rustFoldMax (future_ohlc.map
        (fun x => (x.high - future_ohlc.headI.opn) / d)) = 1 →
      day_x_with_stop_loss day_x future_ohlc d LongShortControl.Short =
        day_x_close day_x future_ohlc LongShortControl.Short d) := by
  constructor
  · rintro dir (rfl | rfl) hmin <;> simp [day_x_with_stop_loss, hmin]
  · intro hmax
    simp [day_x_with_stop_loss, hmax]

/-- Forward path for the C10 witness: with stop distance 2, the worst low
excursion is exactly −1 (a touch), and the day-1 close-based return is +1. -/
def c10_path : List Ohlc :=
  [⟨"d0", 10, 12, 8, 11⟩, ⟨"d1", 11, 12, 9, 12⟩]

/-- Short-side path for the C10 witness: the best high excursion is exactly +1. -/
def c10_path_short : List Ohlc :=
  [⟨"d0", 10, 12, 8, 9⟩, ⟨"d1", 9, 11, 8, 8⟩]

/-- Witness for C10 at concrete inputs on both branches. -/
theorem claim_c10_witness :
    ((rustFoldMin (c10_path.map (fun x => (x.low - c10_path.headI.opn) / 2)) = -1
      ∧ day_x_with_stop_loss 1 c10_path 2 LongShortControl.Long =
          day_x_close 1 c10_path LongShortControl.Long 2)
    ∧ (rustFoldMax (c10_path_short.map
          (fun x => (x.high - c10_path_short.headI.opn) / 2)) = 1
      ∧ day_x_with_stop_loss 1 c10_path_short 2 LongShortControl.Short =
          day_x_close 1 c10_path_short LongShortControl.Short 2)) := by
  constructor
  · exact ⟨by with_unfolding_all decide,
      (claim_c10_exact_touch_is_not_stopped_out 1 c10_path 2).1
        LongShortControl.Long (Or.inl rfl) (by with_unfolding_all decide)⟩
  · exact ⟨by with_unfolding_all decide,
      (claim_c10_exact_touch_is_not_stopped_out 1 c10_path_short 2).2
        (by with_unfolding_all decide)⟩

/-! ### Characterizations of the classifier -/

theorem long_iff (t : List Ohlc) :
    long_or_short_or_control_of t = LongShortControl.Long ↔
      last_close t > prev_19_high t := by
  unfold long_or_short_or_control_of
  cases hA : decide (last_close t > prev_19_high t) <;>
    cases hB : decide (last_close t < prev_19_low t) <;>
      simp_all

theorem short_iff (t : List Ohlc) :
    long_or_short_or_control_of t = LongShortControl.Short ↔
      (¬ last_close t > prev_19_high t ∧ last_close t < prev_19_low t) := by
  unfold long_or_short_or_control_of
  cases hA : decide (last_close t > prev_19_high t) <;>
    cases hB : decide (last_close t < prev_19_low t) <;>
      simp_all

theorem control_iff (t : List Ohlc) :
    long_or_short_or_control_of t = LongShortControl.Control ↔
      (¬ last_close t > prev_19_high t ∧ ¬ last_close t < prev_19_low t) := by
  unfold long_or_short_or_control_of
  cases hA : decide (last_close t > prev_19_high t) <;>
    cases hB : decide (last_close t < prev_19_low t) <;>
      simp_all

theorem prev_19_low_le_prev_19_high (t : List Ohlc) (hlen : t.length = 20)
    (hinv : ∀ b ∈ t, b.low ≤ b.high) :
    prev_19_low t ≤ prev_19_high t := by
  have hlen19 : (t.take 19).length = 19 := by
    rw [List.length_take, hlen]
    norm_num
  obtain ⟨b0, hb0⟩ : ∃ b, b ∈ t.take 19 := by
    cases h19 : t.take 19 with
    | nil => rw [h19] at hlen19; cases hlen19
    | cons b bs => exact ⟨b, List.mem_cons_self b bs⟩
  have h1 : prev_19_low t ≤ b0.low :=
    rustFoldMin_le_of_mem _ _ (List.mem_map_of_mem _ hb0)
  have h2 : b0.high ≤ prev_19_high t :=
    le_rustFoldMax_of_mem _ _ (List.mem_map_of_mem _ hb0)
  have h3 : b0.low ≤ b0.high := hinv b0 (List.mem_of_mem_take hb0)
  linarith

theorem stop_loss_range_nonneg (t : List Ohlc) (f : ℚ) (hf : 0 ≤ f)
    (hlen : t.length = 20) (hinv : ∀ b ∈ t, b.low ≤ b.high) :
    0 ≤ stop_loss_range t f := by
  have hlh := prev_19_low_le_prev_19_high t hlen hinv
  unfold stop_loss_range
  cases hdir : long_or_short_or_control_of t
  · have := (long_iff t).mp hdir
    have : 0 ≤ last_close t - prev_19_low t := by linarith
    exact mul_nonneg this hf
  · have := (short_iff t).mp hdir
    have : 0 ≤ prev_19_high t - last_close t := by linarith [this.2, hlh]
    exact mul_nonneg this hf
  · have : 0 ≤ prev_19_high t - prev_19_low t := by linarith
    exact mul_nonneg this hf

/-! ### C5: direction well-defined, Long and Short mutually exclusive -/

/-- C5: on a 20-bar anchor window of bars satisfying the Bar invariant, the
classifier's output is one of Long, Short, Control, and the Long condition
(anchor close above the 19-prior-bar high) and the Short condition (anchor
close below the 19-prior-bar low) can never hold simultaneously. -/
theorem claim_c5_direction_exclusive (t : List Ohlc) (hlen : t.length = 20)
    (hinv : ∀ b ∈ t, BarInv b) :
    (long_or_short_or_control_of t = LongShortControl.Long ∨
      long_or_short_or_control_of t = LongShortControl.Short ∨
      long_or_short_or_control_of t = LongShortControl.Control)
    ∧ ¬(last_close t > prev_19_high t ∧ last_close t < prev_19_low t) := by
  constructor
  · cases long_or_short_or_control_of t
    · exact Or.inl rfl
    · exact Or.inr (Or.inl rfl)
    · exact Or.inr (Or.inr rfl)
  · have hlh : prev_19_low t ≤ prev_19_high t := by
      refine prev_19_low_le_prev_19_high t hlen (fun b hb => ?_)
      obtain ⟨h1, h2⟩ := hinv b hb
      calc b.low ≤ min b.opn b.close := h1
        _ ≤ max b.opn b.close := min_le_max
        _ ≤ b.high := h2
    rintro ⟨hgt, hlt⟩
    linarith

/-- Concrete anchor window for the C5 witness: twenty identical flat bars. -/
def c5_window : List Ohlc := List.replicate 20 ⟨"x", 1, 1, 1, 1⟩

/-- Witness for C5 at a concrete window. -/
theorem claim_c5_witness :
    c5_window.length = 20 ∧ (∀ b ∈ c5_window, BarInv b) ∧
      ((long_or_short_or_control_of c5_window = LongShortControl.Long ∨
        long_or_short_or_control_of c5_window = LongShortControl.Short ∨
        long_or_short_or_control_of c5_window = LongShortControl.Control)
      ∧ ¬(last_close c5_window > prev_19_high c5_window ∧
          last_close c5_window < prev_19_low c5_window)) :=
  ⟨by with_unfolding_all decide, by with_unfolding_all decide,
    claim_c5_direction_exclusive c5_window (by with_unfolding_all decide)
      (by with_unfolding_all decide)⟩

/-! ### C3: which window the stop distance is computed from -/

/-- Anchor window refuting C3 as stated: the anchor bar's own low (90) is the
lowest low of the 20-bar window, but the code's stop distance only looks at
the 19 prior bars. -/
def c3_window : List Ohlc :=
  List.replicate 19 ⟨"p", 100, 100, 100, 100⟩ ++ [⟨"a", 100, 110, 90, 110⟩]

/-- Counterexample to C3 as stated: on `c3_window` the direction is Long,
the code computes `(110 - 100) * 0.38 = 3.8`, while the spec's formula
(min low over the 20-bar window including the anchor, which is 90) would
give `(110 - 90) * 0.38 = 7.6`. -/
theorem claim_c3_counterexample :
    long_or_short_or_control_of c3_window = LongShortControl.Long
    ∧ stop_loss_range c3_window (38 / 100) = 19 / 5
    ∧ stop_loss_range_spec c3_window (38 / 100) = 38 / 5
    ∧ stop_loss_range c3_window (38 / 100) ≠
        (last_close c3_window - rustFoldMin (c3_window.map (·.low))) * (38 / 100) := by
  with_unfolding_all decide

/-- C3 (amended): the stop distance at fraction `f` is computed from the 19
prior bars, the anchor bar excluded — Long: `(anchor.close - m) * f` with `m`
the least low of the 19 prior bars; Short: `(M - anchor.close) * f` with `M`
the greatest high of the 19 prior bars; Control: `(M - m) * f`. -/
theorem claim_c3_stop_distance_from_19_prior_bars (t : List Ohlc) (f : ℚ)
    (hlen : t.length = 20) :
    (long_or_short_or_control_of t = LongShortControl.Long →
      ∃ m, m ∈ (t.take 19).map (·.low) ∧ (∀ x ∈ (t.take 19).map (·.low), m ≤ x) ∧
        stop_loss_range t f = (last_close t - m) * f)
    ∧ (long_or_short_or_control_of t = LongShortControl.Short →
      ∃ M, M ∈ (t.take 19).map (·.high) ∧ (∀ x ∈ (t.take 19).map (·.high), x ≤ M) ∧
        stop_loss_range t f = (M - last_close t) * f)
    ∧ (long_or_short_or_control_of t = LongShortControl.Control →
      ∃ m M, m ∈ (t.take 19).map (·.low) ∧ (∀ x ∈ (t.take 19).map (·.low), m ≤ x) ∧
        M ∈ (t.take 19).map (·.high) ∧ (∀ x ∈ (t.take 19).map (·.high), x ≤ M) ∧
        stop_loss_range t f = (M - m) * f) := by
  have hlen19 : (t.take 19).length = 19 := by
    rw [List.length_take, hlen]; norm_num
  have hne_low : (t.take 19).map (·.low) ≠ [] := by
    intro h
    have h' := congrArg List.length h
    rw [List.length_map, hlen19] at h'
    simp at h'
  have hne_high : (t.take 19).map (·.high) ≠ [] := by
    intro h
    have h' := congrArg List.length h
    rw [List.length_map, hlen19] at h'
    simp at h' 
  refine ⟨fun hdir => ⟨prev_19_low t, ?_, ?_, ?_⟩,
    fun hdir => ⟨prev_19_high t, ?_, ?_, ?_⟩,
    fun hdir => ⟨prev_19_low t, prev_19_high t, ?_, ?_, ?_, ?_, ?_⟩⟩
  · exact rustFoldMin_mem _ hne_low
  · exact fun x hx => rustFoldMin_le_of_mem _ _ hx
  · unfold stop_loss_range
    rw [hdir]
  · exact rustFoldMax_mem _ hne_high
  · exact fun x hx => le_rustFoldMax_of_mem _ _ hx
  · unfold stop_loss_range
    rw [hdir]
  · exact rustFoldMin_mem _ hne_low
  · exact fun x hx => rustFoldMin_le_of_mem _ _ hx
  · exact rustFoldMax_mem _ hne_high
  · exact fun x hx => le_rustFoldMax_of_mem _ _ hx
  · unfold stop_loss_range
    rw [hdir]

/-- The spec's Example 1 window: 19 flat bars at 100 and an anchor bar
closing at 110. -/
def c3_flat_window : List Ohlc :=
  List.replicate 19 ⟨"p", 100, 100, 100, 100⟩ ++ [⟨"a", 100, 110, 100, 110⟩]

/-- Witness for the amended C3: the Long branch at the Example 1 window, where
the stop distance at fraction 0.38 evaluates to 3.8. -/
theorem claim_c3_witness :
    c3_flat_window.length = 20
    ∧ long_or_short_or_control_of c3_flat_window = LongShortControl.Long
    ∧ (∃ m, m ∈ (c3_flat_window.take 19).map (·.low) ∧
        (∀ x ∈ (c3_flat_window.take 19).map (·.low), m ≤ x) ∧
        stop_loss_range c3_flat_window (38 / 100) = (last_close c3_flat_window - m) * (38 / 100))
    ∧ stop_loss_range c3_flat_window (38 / 100) = 19 / 5 :=
  ⟨by with_unfolding_all decide, by with_unfolding_all decide,
    (claim_c3_stop_distance_from_19_prior_bars c3_flat_window (38 / 100)
      (by with_unfolding_all decide)).1 (by with_unfolding_all decide),
    by with_unfolding_all decide⟩

/-! ### C4: which copy of the bars the standardized range-diff is computed from -/

/-- Raw series refuting C4 as stated: bar d1 opens with a gap (open 20 after a
close of 10), so the gap-adjusted copy differs from the raw bars. -/
def c4_raw : List Ohlc :=
  [⟨"d0", 10, 10, 10, 10⟩, ⟨"d1", 20, 20, 19, 19⟩] ++ List.replicate 79 ⟨"dx", 10, 10, 10, 10⟩

/-- Counterexample to C4 as stated: on `c4_raw` the reported standardized
range-diff is 0.001, the raw-bar value; computing the same statistic on the
gap-adjusted copy would give 0.031. -/
theorem claim_c4_counterexample :
    (BacktestAnalyzer.new c4_raw 0).map BacktestAnalyzer.standardized_diff = some (1 / 1000)
    ∧ standardized_diff_adjusted_spec ((c4_raw.drop 0).take 60) = 31 / 1000
    ∧ (1 / 1000 : ℚ) ≠ 31 / 1000 := by
  with_unfolding_all decide

/-- C4 (amended): the standardized range-diff reported per anchor day equals
`trunc3(mean(high-low) / (max high - min low))` over the 60-bar lookback
window of the RAW bars; the gap-adjusted copy is built but feeds no reported
statistic. -/
theorem claim_c4_standardized_diff_from_raw_bars (raw_ohlc : List Ohlc) (day : ℕ)
    (A : BacktestAnalyzer) (hA : BacktestAnalyzer.new raw_ohlc day = some A) :
    A.standardized_diff = standardized_diff_of ((raw_ohlc.drop day).take 60) := by
  unfold BacktestAnalyzer.new at hA
  split at hA
  · obtain rfl : _ = A := Option.some.inj hA
    rfl
  · cases hA

/-- The analyzer record that `BacktestAnalyzer.new c4_raw 0` produces. -/
def c4_analyzer : BacktestAnalyzer :=
  ⟨"dx", 1 / 1000, 0, 0, 0, 0, 0, 0, 0, 0, 0, LongShortControl.Control⟩

/-- Witness for the amended C4 at the concrete series `c4_raw`. -/
theorem claim_c4_witness :
    BacktestAnalyzer.new c4_raw 0 = some c4_analyzer
    ∧ c4_analyzer.standardized_diff = standardized_diff_of ((c4_raw.drop 0).take 60) :=
  ⟨by with_unfolding_all decide,
    claim_c4_standardized_diff_from_raw_bars c4_raw 0 c4_analyzer
      (by with_unfolding_all decide)⟩

/-! ### C2: the stop floor is respected -/

theorem rustRound_ge_neg_nat (q : ℚ) (n : ℕ) (h : -(n : ℚ) ≤ q) :
    -(n : ℤ) ≤ rustRound q := by
  unfold rustRound
  split
  · have h0 : (0 : ℤ) ≤ ⌊q + 1 / 2⌋ := Int.floor_nonneg.mpr (by linarith)
    omega
  · rename_i h0
    push_neg at h0
    have h1 : ⌊-q + 1 / 2⌋ < (n : ℤ) + 1 := by
      rw [Int.floor_lt]
      push_cast
      linarith
    omega

theorem rustRound_le_nat (q : ℚ) (n : ℕ) (h : q ≤ (n : ℚ)) :
    rustRound q ≤ (n : ℤ) := by
  unfold rustRound
  split
  · have h1 : ⌊q + 1 / 2⌋ < (n : ℤ) + 1 := by
      rw [Int.floor_lt]
      push_cast
      linarith
    omega
  · rename_i h0
    push_neg at h0
    have h1 : (0 : ℤ) ≤ ⌊-q + 1 / 2⌋ := Int.floor_nonneg.mpr (by linarith)
    omega

theorem neg_one_le_round2 (q : ℚ) (h : -1 ≤ q) : -1 ≤ round2 q := by
  unfold round2
  rw [le_div_iff (by norm_num : (0 : ℚ) < 100)]
  have := rustRound_ge_neg_nat (q * 100) 100 (by push_cast; linarith)
  have hc : ((-100 : ℤ) : ℚ) ≤ (rustRound (q * 100) : ℚ) := by exact_mod_cast this
  push_cast at hc ⊢
  linarith

theorem round2_le_one (q : ℚ) (h : q ≤ 1) : round2 q ≤ 1 := by
  unfold round2
  rw [div_le_iff (by norm_num : (0 : ℚ) < 100)]
  have := rustRound_le_nat (q * 100) 100 (by push_cast; linarith)
  have hc : (rustRound (q * 100) : ℚ) ≤ ((100 : ℤ) : ℚ) := by exact_mod_cast this
  push_cast at hc ⊢
  linarith

/-- Lower bound for one simulated outcome: with a nonnegative stop distance
and bars whose low/close/high are consistently ordered, the stop-bounded
outcome never falls below −1. -/
theorem day_x_with_stop_loss_ge_neg_one (day_x : ℕ) (future_ohlc : List Ohlc)
    (slr : ℚ) (dir : LongShortControl) (hslr : 0 ≤ slr)
    (hinv : ∀ b ∈ future_ohlc, b.low ≤ b.close ∧ b.close ≤ b.high)
    (hday : day_x < future_ohlc.length) :
    -1 ≤ day_x_with_stop_loss day_x future_ohlc slr dir := by
  have hbar : future_ohlc.getD day_x default = future_ohlc.get ⟨day_x, hday⟩ :=
    List.getD_eq_get future_ohlc default hday
  have hbarmem : future_ohlc.get ⟨day_x, hday⟩ ∈ future_ohlc :=
    future_ohlc.get_mem day_x hday
  obtain ⟨hlc, hch⟩ := hinv _ hbarmem
  have hlong : ¬ rustFoldMin (future_ohlc.map
        (fun x => (x.low - future_ohlc.headI.opn) / slr)) < -1 →
      -1 ≤ round2 (((future_ohlc.getD day_x default).close - future_ohlc.headI.opn) / slr) := by
    intro hc
    apply neg_one_le_round2
    rcases hslr.eq_or_lt with hz | hpos
    · rw [hbar, ← hz, div_zero]
      norm_num
    · push_neg at hc
      have hmem : ((future_ohlc.get ⟨day_x, hday⟩).low - future_ohlc.headI.opn) / slr ∈
          future_ohlc.map (fun x => (x.low - future_ohlc.headI.opn) / slr) :=
        List.mem_map_of_mem _ hbarmem
      have h1 := le_trans hc (rustFoldMin_le_of_mem _ _ hmem)
      have h2 : ((future_ohlc.get ⟨day_x, hday⟩).low - future_ohlc.headI.opn) / slr ≤
          ((future_ohlc.get ⟨day_x, hday⟩).close - future_ohlc.headI.opn) / slr :=
        (div_le_div_right hpos).mpr (by linarith)
      rw [hbar]
      linarith
  cases dir with
  | Long =>
    by_cases hc : rustFoldMin (future_ohlc.map
        (fun x => (x.low - future_ohlc.headI.opn) / slr)) < -1
    · simp [day_x_with_stop_loss, hc]
    · have hstep : day_x_with_stop_loss day_x future_ohlc slr LongShortControl.Long =
          day_x_close day_x future_ohlc LongShortControl.Long slr := by
        simp [day_x_with_stop_loss, hc]
      rw [hstep]
      exact hlong hc
  | Control =>
    by_cases hc : rustFoldMin (future_ohlc.map
        (fun x => (x.low - future_ohlc.headI.opn) / slr)) < -1
    · simp [day_x_with_stop_loss, hc]
    · have hstep : day_x_with_stop_loss day_x future_ohlc slr LongShortControl.Control =
          day_x_close day_x future_ohlc LongShortControl.Control slr := by
        simp [day_x_with_stop_loss, hc]
      rw [hstep]
      exact hlong hc
  | Short =>
    by_cases hc : rustFoldMax (future_ohlc.map
        (fun x => (x.high - future_ohlc.headI.opn) / slr)) > 1
    · simp [day_x_with_stop_loss, hc]
    · have hstep : day_x_with_stop_loss day_x future_ohlc slr LongShortControl.Short =
          day_x_close day_x future_ohlc LongShortControl.Short slr := by
        simp [day_x_with_stop_loss, hc]
      rw [hstep]
      have hdc : day_x_close day_x future_ohlc LongShortControl.Short slr =
          round2 (((future_ohlc.getD day_x default).close - future_ohlc.headI.opn) / slr)
            * (-1) := rfl
      rw [hdc]
      have hle : ((future_ohlc.getD day_x default).close - future_ohlc.headI.opn) / slr ≤ 1 := by
        rcases hslr.eq_or_lt with hz | hpos
        · rw [hbar, ← hz, div_zero]
          norm_num
        · push_neg at hc
          have hmem : ((future_ohlc.get ⟨day_x, hday⟩).high - future_ohlc.headI.opn) / slr ∈
              future_ohlc.map (fun x => (x.high - future_ohlc.headI.opn) / slr) :=
            List.mem_map_of_mem _ hbarmem
          have h1 := le_trans (le_rustFoldMax_of_mem _ _ hmem) hc
          have h2 : ((future_ohlc.get ⟨day_x, hday⟩).close - future_ohlc.headI.opn) / slr ≤
              ((future_ohlc.get ⟨day_x, hday⟩).high - future_ohlc.headI.opn) / slr :=
            (div_le_div_right hpos).mpr (by linarith)
          rw [hbar]
          linarith
      have := round2_le_one _ hle
      linarith

/-- C2: every simulated outcome the analyzer produces — every direction, the
three horizons 5/10/20 and the three stop fractions 0.38/0.50/0.62 — is at
least −1.0, provided the input bars satisfy the Bar invariant. -/
theorem claim_c2_normalized_return_ge_neg_one (raw_ohlc : List Ohlc) (day : ℕ)
    (A : BacktestAnalyzer) (hinv : ∀ b ∈ raw_ohlc, BarInv b)
    (hA : BacktestAnalyzer.new raw_ohlc day = some A) :
    -1 ≤ A.day5_with_stop_loss_38 ∧ -1 ≤ A.day5_with_stop_loss_50
    ∧ -1 ≤ A.day5_with_stop_loss_62 ∧ -1 ≤ A.day10_with_stop_loss_38
    ∧ -1 ≤ A.day10_with_stop_loss_50 ∧ -1 ≤ A.day10_with_stop_loss_62
    ∧ -1 ≤ A.day20_with_stop_loss_38 ∧ -1 ≤ A.day20_with_stop_loss_50
    ∧ -1 ≤ A.day20_with_stop_loss_62 := by
  unfold BacktestAnalyzer.new at hA
  split at hA
  case isFalse => cases hA
  case isTrue hlen =>
  obtain rfl : _ = A := Option.some.inj hA
  have hmem10 : ∀ b ∈ future_ohlc_10 raw_ohlc day, b ∈ raw_ohlc := fun b hb =>
    List.mem_of_mem_drop (List.mem_of_mem_take hb)
  have hmem20f : ∀ b ∈ future_ohlc_20 raw_ohlc day, b ∈ raw_ohlc := fun b hb =>
    List.mem_of_mem_drop (List.mem_of_mem_take hb)
  have hinv10 : ∀ b ∈ future_ohlc_10 raw_ohlc day, b.low ≤ b.close ∧ b.close ≤ b.high := by
    intro b hb
    obtain ⟨h1, h2⟩ := hinv b (hmem10 b hb)
    exact ⟨le_trans h1 (min_le_right _ _), le_trans (le_max_right _ _) h2⟩
  have hinv20f : ∀ b ∈ future_ohlc_20 raw_ohlc day, b.low ≤ b.close ∧ b.close ≤ b.high := by
    intro b hb
    obtain ⟨h1, h2⟩ := hinv b (hmem20f b hb)
    exact ⟨le_trans h1 (min_le_right _ _), le_trans (le_max_right _ _) h2⟩
  have hlen10 : (future_ohlc_10 raw_ohlc day).length = 11 := by
    rw [future_ohlc_10, List.length_take, List.length_drop]
    omega
  have hlen20f : (future_ohlc_20 raw_ohlc day).length = 21 := by
    rw [future_ohlc_20, List.length_take, List.length_drop]
    omega
  have hlen20 : (testing_ohlc_20 raw_ohlc day).length = 20 := by
    rw [testing_ohlc_20, List.length_take, List.length_drop]
    omega
  have hinvt : ∀ b ∈ testing_ohlc_20 raw_ohlc day, b.low ≤ b.high := by
    intro b hb
    obtain ⟨h1, h2⟩ := hinv b (List.mem_of_mem_drop (List.mem_of_mem_take hb))
    exact le_trans h1 (le_trans min_le_max h2)
  have h38 : 0 ≤ stop_loss_range (testing_ohlc_20 raw_ohlc day) (38 / 100) :=
    stop_loss_range_nonneg _ _ (by norm_num) hlen20 hinvt
  have h50 : 0 ≤ stop_loss_range (testing_ohlc_20 raw_ohlc day) (1 / 2) :=
    stop_loss_range_nonneg _ _ (by norm_num) hlen20 hinvt
  have h62 : 0 ≤ stop_loss_range (testing_ohlc_20 raw_ohlc day) (62 / 100) :=
    stop_loss_range_nonneg _ _ (by norm_num) hlen20 hinvt
  refine ⟨?_, ?_, ?_, ?_, ?_, ?_, ?_, ?_, ?_⟩
  · exact day_x_with_stop_loss_ge_neg_one 4 _ _ _ h38 hinv10 (by rw [hlen10]; norm_num)
  · exact day_x_with_stop_loss_ge_neg_one 4 _ _ _ h50 hinv10 (by rw [hlen10]; norm_num)
  · exact day_x_with_stop_loss_ge_neg_one 4 _ _ _ h62 hinv10 (by rw [hlen10]; norm_num)
  · exact day_x_with_stop_loss_ge_neg_one 9 _ _ _ h38 hinv10 (by rw [hlen10]; norm_num)
  · exact day_x_with_stop_loss_ge_neg_one 9 _ _ _ h50 hinv10 (by rw [hlen10]; norm_num)
  · exact day_x_with_stop_loss_ge_neg_one 9 _ _ _ h62 hinv10 (by rw [hlen10]; norm_num)
  · exact day_x_with_stop_loss_ge_neg_one 19 _ _ _ h38 hinv20f (by rw [hlen20f]; norm_num)
  · exact day_x_with_stop_loss_ge_neg_one 19 _ _ _ h50 hinv20f (by rw [hlen20f]; norm_num)
  · exact day_x_with_stop_loss_ge_neg_one 19 _ _ _ h62 hinv20f (by rw [hlen20f]; norm_num)

/-- Concrete raw series for the C2 witness: 81 identical flat bars. -/
def c2_raw : List Ohlc := List.replicate 81 ⟨"w", 1, 1, 1, 1⟩

/-- The analyzer record produced from `c2_raw` at day 0. -/
def c2_analyzer : BacktestAnalyzer :=
  ⟨"w", 0, 0, 0, 0, 0, 0, 0, 0, 0, 0, LongShortControl.Control⟩

/-- Witness for C2 at the concrete series `c2_raw`. -/
theorem claim_c2_witness :
    (∀ b ∈ c2_raw, BarInv b) ∧ BacktestAnalyzer.new c2_raw 0 = some c2_analyzer
    ∧ (-1 ≤ c2_analyzer.day5_with_stop_loss_38 ∧ -1 ≤ c2_analyzer.day5_with_stop_loss_50
      ∧ -1 ≤ c2_analyzer.day5_with_stop_loss_62 ∧ -1 ≤ c2_analyzer.day10_with_stop_loss_38
      ∧ -1 ≤ c2_analyzer.day10_with_stop_loss_50 ∧ -1 ≤ c2_analyzer.day10_with_stop_loss_62
      ∧ -1 ≤ c2_analyzer.day20_with_stop_loss_38 ∧ -1 ≤ c2_analyzer.day20_with_stop_loss_50
      ∧ -1 ≤ c2_analyzer.day20_with_stop_loss_62) :=
  ⟨by with_unfolding_all decide, by with_unfolding_all decide,
    claim_c2_normalized_return_ge_neg_one c2_raw 0 c2_analyzer
      (by with_unfolding_all decide) (by with_unfolding_all decide)⟩

/-! ### C6: the window builder `StocksWindow::from_vec` -/

/-- The error enum of `src/my_error.rs`, restricted to the variants the
embedded functions produce: `OutOfRange` and the `anyhow`-wrapped error. -/
inductive MyError where
  | OutOfRange
  | Anyhow (msg : String)
deriving DecidableEq

/-- The premium daily bar consumed by `StocksWindow::from_vec`. Its struct
declaration lives outside the provided sources; the field list and order are
reconstructed from its constructor `OhlcPremium::new(date, open, high, low,
close, morning_close, afternoon_open)` (`src/jquants/live.rs` lines 454–466)
and its getters used by `stocks_window.rs`. -/
structure OhlcPremium where
  date : String
  opn : ℚ
  high : ℚ
  low : ℚ
  close : ℚ
  morning_close : ℚ
  afternoon_open : ℚ
deriving DecidableEq

instance : Inhabited OhlcPremium := ⟨⟨"", 0, 0, 0, 0, 0, 0⟩⟩

/-- Rust `f64 as i32`: truncate toward zero, saturating at the i32 bounds. -/
def rustAsI32 (q : ℚ) : ℤ := max (-(2 ^ 31)) (min (2 ^ 31 - 1) (rustTrunc q))

/-- Rust `.floor() as usize`: floor, then saturate below at zero (the
`usize::MAX` saturation is unreachable at the single call site, which always
applies `.min(4)` afterwards). -/
def rustFloorAsUsize (q : ℚ) : ℕ := ⌊q⌋.toNat

/-- The `StocksWindow` record of `src/analysis/stocks_window.rs` lines 18–37. -/
structure StocksWindow where
  code : ℤ
  name : String
  atr : ℚ
  unit : ℤ
  required_amount : ℤ
  latest_move : ℚ
  standardized_diff : ℚ
  current_price : ℚ
  lower_bound : ℚ
  upper_bound : ℚ
  result_morning_close : Option ℚ
  result_afternoon_open : Option ℚ
  result_close : Option ℚ
  nextday_morning_close : Option ℚ
  morning_move : Option ℚ
  analyzed_at : String
  result_at : Option String
deriving DecidableEq

/-- One count update of the `ranges` histogram loop (`stocks_window.rs`
lines 108–122). -/
def bucketIncrement (lowest_low highest_high step : ℚ) (acc : List ℕ) (v : ℚ) : List ℕ :=
  if lowest_low ≤ v ∧ v ≤ highest_high then
    let index := min (rustFloorAsUsize ((v - lowest_low) / step)) 4
    acc.set index (acc.getD index 0 + 1)
  else acc

/-- Rust `iter().enumerate().max_by_key(|&(_, count)| count)`: the index of
the LAST maximal count (`max_by_key` keeps the last among equals). -/
def lastArgmax (ranges : List ℕ) : ℕ :=
  (List.range ranges.length).foldl
    (fun best i => if ranges.getD best 0 ≤ ranges.getD i 0 then i else best) 0

/-- `StocksWindow::from_vec` (`stocks_window.rs` lines 40–207). The date is
looked up with `position`; a missing date or a position earlier than index 59
yields `MyError::OutOfRange`. All later arithmetic is total (float division
by zero becomes `0` in ℚ), as in the source, which can return no other
error. -/
def StocksWindow.from_vec (ohlc_vec : List OhlcPremium) (code : ℤ) (name : String)
    (unit : ℚ) (date : String) : Except MyError StocksWindow :=
  match ohlc_vec.findIdx? (fun o => o.date == date) with
  | none => .error .OutOfRange
  | some position =>
    if position < 59 then .error .OutOfRange
    else
      let ohlc_5 := (ohlc_vec.drop (position - 4)).take 5
      let ohlc_20 := (ohlc_vec.drop (position - 19)).take 20
      let ohlc_60 := (ohlc_vec.drop (position - 59)).take 60
      let prev_19 := ohlc_20.take 19
      let last_close := ((ohlc_20.drop 19).headI).close
      let last2_close := (prev_19.getD 18 default).close
      let prev_19_high := rustFoldMax (prev_19.map (·.high))
      let prev_19_low := rustFoldMin (prev_19.map (·.low))
      let latest_move := round2 ((last_close - last2_close) / (prev_19_high - prev_19_low))
      let atr := round1 ((ohlc_5.map (fun o => o.high - o.low)).sum / (ohlc_5.length : ℚ))
      let unit2 := unit / atr
      let required_amount := rustAsI32 (unit2 * last_close)
      let highest_high := rustFoldMax (ohlc_60.map (·.high))
      let lowest_low := rustFoldMin (ohlc_60.map (·.low))
      let average_diff := (ohlc_60.map (fun o => o.high - o.low)).sum / (ohlc_60.length : ℚ)
      let standardized_diff := trunc3 (average_diff / (highest_high - lowest_low))
      let range := highest_high - lowest_low
      let step := range / 5
      let ranges := ohlc_60.foldl
        (fun acc o => [o.opn, o.high, o.low, o.close].foldl
          (bucketIncrement lowest_low highest_high step) acc)
        [0, 0, 0, 0, 0]
      let max_range_index := lastArgmax ranges
      let lower_bound := round1 (lowest_low + step * (max_range_index : ℚ))
      let upper_bound := round1 (lowest_low + step * ((max_range_index : ℚ) + 1))
      let current_price := (ohlc_vec.getD position default).close
      let has_next := position + 1 < ohlc_vec.length
      let next := ohlc_vec.getD (position + 1) default
      .ok
        { code := code
          name := name
          atr := atr
          unit := rustAsI32 unit2
          required_amount := required_amount
          latest_move := latest_move
          standardized_diff := standardized_diff
          current_price := current_price
          lower_bound := lower_bound
          upper_bound := upper_bound
          result_morning_close :=
            if has_next then some (round2 ((next.morning_close - next.opn) / atr)) else none
          result_afternoon_open :=
            if has_next then some (round2 ((next.afternoon_open - next.opn) / atr)) else none
          result_close :=
            if has_next then some (round2 ((next.close - next.opn) / atr)) else none
          nextday_morning_close := if has_next then some next.morning_close else none
          morning_move :=
            if has_next then
              some (round2 ((next.morning_close - (ohlc_vec.getD position default).close)
                / (prev_19_high - prev_19_low)))
            else none
          analyzed_at := (ohlc_vec.getD position default).date
          result_at := if has_next then some next.date else none }

/-- A series of 60 bars whose last bar (index 59, with exactly 59 bars before
it) carries the anchor date `"y"`. -/
def c6_vec_59_before : List OhlcPremium :=
  List.replicate 59 ⟨"x", 1, 1, 1, 1, 1, 1⟩ ++ [⟨"y", 1, 1, 1, 1, 1, 1⟩]

/-- A series of 59 bars whose last bar (index 58, with exactly 58 bars before
it) carries the anchor date `"y"`. -/
def c6_vec_58_before : List OhlcPremium :=
  List.replicate 58 ⟨"x", 1, 1, 1, 1, 1, 1⟩ ++ [⟨"y", 1, 1, 1, 1, 1, 1⟩]

/-- Counterexample to C6 as stated: an anchor date with exactly 59 bars before
it SUCCEEDS (the source only rejects `position < 59`), where the claim says it
must fail with the insufficient-history error. -/
theorem claim_c6_counterexample :
    (StocksWindow.from_vec c6_vec_59_before 0 "n" 1 "y").isOk = true := by
  with_unfolding_all decide

/-- C6 (amended): when the anchor date is found at index `p`, the window build
fails with `OutOfRange` exactly when fewer than 59 bars precede the anchor —
58 bars before fail, 59 bars before (60 bars in total) succeed. -/
theorem claim_c6_insufficient_history_boundary (ohlc_vec : List OhlcPremium)
    (code : ℤ) (name : String) (unit : ℚ) (date : String) (p : ℕ)
    (hp : ohlc_vec.findIdx? (fun o => o.date == date) = some p) :
    (p < 59 →
      StocksWindow.from_vec ohlc_vec code name unit date = .error .OutOfRange)
    ∧ (59 ≤ p →
      (StocksWindow.from_vec ohlc_vec code name unit date).isOk = true) := by
  unfold StocksWindow.from_vec
  rw [hp]
  dsimp only
  constructor
  · intro h
    rw [if_pos h]
  · intro h
    rw [if_neg (by omega)]
    rfl

/-- Witness for the amended C6: both boundary sides at concrete series. -/
theorem claim_c6_witness :
    (c6_vec_58_before.findIdx? (fun o => o.date == "y") = some 58
      ∧ StocksWindow.from_vec c6_vec_58_before 0 "n" 1 "y" = .error .OutOfRange)
    ∧ (c6_vec_59_before.findIdx? (fun o => o.date == "y") = some 59
      ∧ (StocksWindow.from_vec c6_vec_59_before 0 "n" 1 "y").isOk = true) := by
  constructor
  · exact ⟨by with_unfolding_all decide,
      (claim_c6_insufficient_history_boundary c6_vec_58_before 0 "n" 1 "y" 58
        (by with_unfolding_all decide)).1 (by norm_num)⟩
  · exact ⟨by with_unfolding_all decide,
      (claim_c6_insufficient_history_boundary c6_vec_59_before 0 "n" 1 "y" 59
        (by with_unfolding_all decide)).2 (by norm_num)⟩

/-! ### C7 and C8: the per-bucket t-test -/

/-- `statrs` `Statistics::mean`: sum over length (the float NaN on an empty
vector becomes `0` here; the only empty-data caller path ends in a panic
before the mean is used). -/
def statMean (data : List ℚ) : ℚ := data.sum / (data.length : ℚ)

/-- `statrs` `Statistics::variance`: the n−1-denominator sample variance (NaN
for fewer than two entries becomes `0 / 0 = 0` here; such data ends in a
panic before the variance is used). -/
def statVariance (data : List ℚ) : ℚ :=
  ((data.map (fun x => (x - statMean data) ^ 2)).sum) / ((data.length : ℚ) - 1)

/-- The `TTestResult` record of `stocks_daytrading.rs` lines 1014–1017. -/
structure TTestResult where
  mean : ℚ
  p_value : ℚ
deriving DecidableEq

/-- `TTestResult::new` (`stocks_daytrading.rs` lines 1019–1039). The
Student-t CDF and the square root are transcendental, so the embedding takes
them as parameters: `tcdf df t` stands for `StudentsT::new(0,1,df).cdf(t)`
and `sqrtF` for `f64::sqrt`. `StudentsT::new(0.0, 1.0, df).unwrap()` panics
when `df = len - 1 ≤ 0`, i.e. on data with fewer than two entries; the panic
is modelled as `none`. -/
def TTestResult.new (tcdf : ℚ → ℚ → ℚ) (sqrtF : ℚ → ℚ) (data : List ℚ) :
    Option TTestResult :=
  let mean := statMean data
  let variance := statVariance data
  let len : ℚ := (data.length : ℚ)
  let t := mean / sqrtF (variance / len)
  let df := len - 1
  if data.length ≤ 1 then none
  else
    some
      (if 0 ≤ mean then
        ⟨round3 mean, 1 - round3 (tcdf df t)⟩
      else
        ⟨round3 mean, round3 (tcdf df t)⟩)

/-- The significance test of `TTestResult`'s `Display` impl
(`stocks_daytrading.rs` lines 1048–1061): the stored p-value is re-rounded to
2 decimals and compared with 0.05. -/
def TTestResult.significant (r : TTestResult) : Bool :=
  decide (round2 r.p_value < 5 / 100)

/-- C7: an aggregation bucket with zero samples produces no "no data" report —
`TTestResult::new` on an empty data vector panics (modelled as `none`),
because `StudentsT::new(0.0, 1.0, -1.0).unwrap()` fails; no statistics are
produced, and neither is any report. -/
theorem claim_c7_empty_bucket_panics (tcdf : ℚ → ℚ → ℚ) (sqrtF : ℚ → ℚ) :
    TTestResult.new tcdf sqrtF [] = none := rfl

/-- C8 (amended): for every bucket with n ≥ 2 samples the reported p-value is
`1 - round3(p_raw)` when the mean is nonnegative and `round3(p_raw)`
otherwise, with `p_raw = tcdf (n-1) (mean / sqrt(variance/n))`; the bucket is
flagged significant exactly when the stored p-value re-rounded to 2 decimals
is below 0.05. (With n ≤ 1 the source panics instead of reporting.) -/
theorem claim_c8_p_value_formula (tcdf : ℚ → ℚ → ℚ) (sqrtF : ℚ → ℚ)
    (data : List ℚ) (R : TTestResult) (h2 : 2 ≤ data.length)
    (hR : TTestResult.new tcdf sqrtF data = some R) :
    (R.p_value =
      if 0 ≤ statMean data then
        1 - round3 (tcdf ((data.length : ℚ) - 1)
          (statMean data / sqrtF (statVariance data / (data.length : ℚ))))
      else
        round3 (tcdf ((data.length : ℚ) - 1)
          (statMean data / sqrtF (statVariance data / (data.length : ℚ)))))
    ∧ (R.significant = true ↔ round2 R.p_value < 5 / 100) := by
  unfold TTestResult.new at hR
  rw [if_neg (by omega)] at hR
  obtain rfl : _ = R := Option.some.inj hR
  constructor
  · by_cases h : 0 ≤ statMean data <;> simp [h]
  · by_cases h : 0 ≤ statMean data <;>
      simp [TTestResult.significant, h]

/-- Constant CDF used in the C8 example: `tcdf df t = 0.953`. -/
def c8_cdf : ℚ → ℚ → ℚ := fun _ _ => 953 / 1000

/-- Square-root stand-in used in the C8 example. -/
def c8_sqrt : ℚ → ℚ := fun _ => 0

/-- Two-sample bucket data for the C8 example. -/
def c8_data : List ℚ := [1 / 10, 1 / 10]

/-- The t-test record produced from `c8_data` under `c8_cdf`: mean 0.1,
reported p-value `1 - 0.953 = 0.047`. -/
def c8_result : TTestResult := ⟨1 / 10, 47 / 1000⟩

/-- Counterexample to C8 as stated: a one-sample bucket panics instead of
reporting a p-value, and a bucket whose reported p-value is 0.047 — which is
below 0.05 — is NOT flagged significant, because the display logic re-rounds
0.047 to 0.05 before comparing. -/
theorem claim_c8_counterexample :
    TTestResult.new c8_cdf c8_sqrt [1 / 10] = none
    ∧ TTestResult.new c8_cdf c8_sqrt c8_data = some c8_result
    ∧ c8_result.p_value = 47 / 1000
    ∧ (47 / 1000 : ℚ) < 5 / 100
    ∧ c8_result.significant = false := by
  with_unfolding_all decide

/-- Witness for the amended C8 at the concrete bucket `c8_data`. -/
theorem claim_c8_witness :
    2 ≤ c8_data.length
    ∧ TTestResult.new c8_cdf c8_sqrt c8_data = some c8_result
    ∧ ((c8_result.p_value =
        if 0 ≤ statMean c8_data then
          1 - round3 (c8_cdf ((c8_data.length : ℚ) - 1)
            (statMean c8_data / c8_sqrt (statVariance c8_data / (c8_data.length : ℚ))))
        else
          round3 (c8_cdf ((c8_data.length : ℚ) - 1)
            (statMean c8_data / c8_sqrt (statVariance c8_data / (c8_data.length : ℚ)))))
      ∧ (c8_result.significant = true ↔ round2 c8_result.p_value < 5 / 100)) :=
  ⟨by norm_num [c8_data], by with_unfolding_all decide,
    claim_c8_p_value_formula c8_cdf c8_sqrt c8_data c8_result
      (by norm_num [c8_data]) (by with_unfolding_all decide)⟩

/-! ### C9: the driver's result-collection loop -/

/-- The result-collection loop shared verbatim by `async_exec`
(`stocks_daytrading.rs` lines 1150–1167) and `create_stocks_window_list`
(`stocks_window.rs` lines 739–753). Each joined task contributes
`Result<Result<List, MyError>, JoinError>` (the join error rendered as a
`String`): a `JoinError` is logged and returned as `Err` (`some (.error _)`),
an inner per-instrument failure hits `res.unwrap()` and panics the whole run
(modelled `none`), and successes are appended in order. -/
def asyncExecJoin {α : Type} :
    List (Except String (Except MyError (List α))) → Option (Except MyError (List α))
  | [] => some (.ok [])
  | .error e :: _ => some (.error (.Anyhow e))
  | .ok (.error _) :: _ => none
  | .ok (.ok xs) :: rest =>
    match asyncExecJoin rest with
    | none => none
    | some (.error e) => some (.error e)
    | some (.ok acc) => some (.ok (xs ++ acc))

/-- C9: the driver does NOT isolate per-instrument failures — one instrument
whose load/parse fails (an inner `Err` among otherwise successful results)
makes the whole collection loop panic (`none`): no partial results and no
failed-instrument list are returned. -/
theorem claim_c9_single_failure_aborts_run {α : Type}
    (pre : List (Except String (Except MyError (List α))))
    (hpre : ∀ r ∈ pre, ∃ xs, r = .ok (.ok xs)) (e : MyError)
    (rest : List (Except String (Except MyError (List α)))) :
    asyncExecJoin (pre ++ .ok (.error e) :: rest) = none := by
  induction pre with
  | nil => rfl
  | cons r pre ih =>
    obtain ⟨xs, rfl⟩ := hpre r (List.mem_cons_self r pre)
    have htail := ih (fun r hr => hpre r (List.mem_cons_of_mem _ hr))
    rw [List.cons_append]
    simp [asyncExecJoin, htail]

/-- Per-instrument results for the C9 witness: one success, one failed
instrument, one more success. -/
def c9_results : List (Except String (Except MyError (List ℚ))) :=
  [.ok (.ok [1]), .ok (.error .OutOfRange), .ok (.ok [2])]

/-- Witness for C9 at a concrete result list. -/
theorem claim_c9_witness :
    (∀ r ∈ ([.ok (.ok [1])] : List (Except String (Except MyError (List ℚ)))),
      ∃ xs, r = .ok (.ok xs))
    ∧ asyncExecJoin c9_results = none :=
  ⟨fun r hr => ⟨[1], List.mem_singleton.mp hr⟩,
    claim_c9_single_failure_aborts_run [.ok (.ok [1])]
      (fun r hr => ⟨[1], List.mem_singleton.mp hr⟩) .OutOfRange [.ok (.ok [2])]⟩
